import Mathlib

/-!
Verification development for the memory-poc agent pipeline.

The TypeScript sources are embedded shallowly:

* JSON values (the dynamic values flowing through the route handlers and
  tool executors) are modelled by the inductive `Json`; JavaScript numbers
  are modelled as rationals (`Rat`), which covers every integral and
  fractional value the routes actually handle (NaN/Infinity and decimal
  float formatting are outside the modelled fragment).
* Property access `x?.k` is `jsGet`, truthiness is `jsTruthy`, the `??`
  coalescing chain is `firstNonNullish`, `String(x)` is `jsToString`,
  `JSON.stringify` is `stringifyCompact` / `stringifyPretty` (indent 2),
  `Array.prototype.slice(0, e)` is `jsSlice0`.
* Fallible code (functions that `throw`) returns `Except String`.
* The asynchronous fire-and-forget memory write is modelled by passing the
  eventual storage outcome as an explicit argument whose value the tool
  result returned to the caller does not depend on.
-/

/-- A JSON/JavaScript value.  `null` stands for both `null` and `undefined`
when it appears as a stored value; an *absent* property is `Option.none`. -/
inductive Json where
  | null : Json
  | bool (b : Bool) : Json
  | num (n : Rat) : Json
  | str (s : String) : Json
  | arr (xs : List Json) : Json
  | obj (fields : List (String × Json)) : Json
deriving Inhabited

mutual

def Json.decEq : (a b : Json) → Decidable (a = b)
  | .null, .null => isTrue rfl
  | .bool x, .bool y =>
      if h : x = y then isTrue (h ▸ rfl) else isFalse (fun hh => h (Json.bool.inj hh))
  | .num x, .num y =>
      if h : x = y then isTrue (h ▸ rfl) else isFalse (fun hh => h (Json.num.inj hh))
  | .str x, .str y =>
      if h : x = y then isTrue (h ▸ rfl) else isFalse (fun hh => h (Json.str.inj hh))
  | .arr xs, .arr ys =>
      match Json.decEqList xs ys with
      | isTrue h => isTrue (h ▸ rfl)
      | isFalse h => isFalse (fun hh => h (Json.arr.inj hh))
  | .obj fs, .obj gs =>
      match Json.decEqFields fs gs with
      | isTrue h => isTrue (h ▸ rfl)
      | isFalse h => isFalse (fun hh => h (Json.obj.inj hh))
  | .null, .bool _ => isFalse (fun h => Json.noConfusion h)
  | .null, .num _ => isFalse (fun h => Json.noConfusion h)
  | .null, .str _ => isFalse (fun h => Json.noConfusion h)
  | .null, .arr _ => isFalse (fun h => Json.noConfusion h)
  | .null, .obj _ => isFalse (fun h => Json.noConfusion h)
  | .bool _, .null => isFalse (fun h => Json.noConfusion h)
  | .bool _, .num _ => isFalse (fun h => Json.noConfusion h)
  | .bool _, .str _ => isFalse (fun h => Json.noConfusion h)
  | .bool _, .arr _ => isFalse (fun h => Json.noConfusion h)
  | .bool _, .obj _ => isFalse (fun h => Json.noConfusion h)
  | .num _, .null => isFalse (fun h => Json.noConfusion h)
  | .num _, .bool _ => isFalse (fun h => Json.noConfusion h)
  | .num _, .str _ => isFalse (fun h => Json.noConfusion h)
  | .num _, .arr _ => isFalse (fun h => Json.noConfusion h)
  | .num _, .obj _ => isFalse (fun h => Json.noConfusion h)
  | .str _, .null => isFalse (fun h => Json.noConfusion h)
  | .str _, .bool _ => isFalse (fun h => Json.noConfusion h)
  | .str _, .num _ => isFalse (fun h => Json.noConfusion h)
  | .str _, .arr _ => isFalse (fun h => Json.noConfusion h)
  | .str _, .obj _ => isFalse (fun h => Json.noConfusion h)
  | .arr _, .null => isFalse (fun h => Json.noConfusion h)
  | .arr _, .bool _ => isFalse (fun h => Json.noConfusion h)
  | .arr _, .num _ => isFalse (fun h => Json.noConfusion h)
  | .arr _, .str _ => isFalse (fun h => Json.noConfusion h)
  | .arr _, .obj _ => isFalse (fun h => Json.noConfusion h)
  | .obj _, .null => isFalse (fun h => Json.noConfusion h)
  | .obj _, .bool _ => isFalse (fun h => Json.noConfusion h)
  | .obj _, .num _ => isFalse (fun h => Json.noConfusion h)
  | .obj _, .str _ => isFalse (fun h => Json.noConfusion h)
  | .obj _, .arr _ => isFalse (fun h => Json.noConfusion h)

def Json.decEqList : (xs ys : List Json) → Decidable (xs = ys)
  | [], [] => isTrue rfl
  | [], _ :: _ => isFalse (fun h => List.noConfusion h)
  | _ :: _, [] => isFalse (fun h => List.noConfusion h)
  | x :: xs, y :: ys =>
      match Json.decEq x y with
      | isFalse h => isFalse (fun hh => h (List.cons.inj hh).1)
      | isTrue h1 =>
          match Json.decEqList xs ys with
          | isTrue h2 => isTrue (h1 ▸ h2 ▸ rfl)
          | isFalse h => isFalse (fun hh => h (List.cons.inj hh).2)

def Json.decEqFields : (fs gs : List (String × Json)) → Decidable (fs = gs)
  | [], [] => isTrue rfl
  | [], _ :: _ => isFalse (fun h => List.noConfusion h)
  | _ :: _, [] => isFalse (fun h => List.noConfusion h)
  | (k, v) :: fs, (l, w) :: gs =>
      if hk : k = l then
        match Json.decEq v w with
        | isFalse h =>
            isFalse (fun hh => h (congrArg Prod.snd (List.cons.inj hh).1))
        | isTrue h1 =>
            match Json.decEqFields fs gs with
            | isTrue h2 => isTrue (hk ▸ h1 ▸ h2 ▸ rfl)
            | isFalse h => isFalse (fun hh => h (List.cons.inj hh).2)
      else isFalse (fun hh => hk (congrArg Prod.fst (List.cons.inj hh).1))

end

instance : DecidableEq Json := Json.decEq

instance {ε α : Type} [DecidableEq ε] [DecidableEq α] : DecidableEq (Except ε α) :=
  fun a b =>
    match a, b with
    | Except.ok x, Except.ok y =>
        if h : x = y then isTrue (h ▸ rfl)
        else isFalse (fun hh => h (Except.ok.inj hh))
    | Except.error x, Except.error y =>
        if h : x = y then isTrue (h ▸ rfl)
        else isFalse (fun hh => h (Except.error.inj hh))
    | Except.ok _, Except.error _ => isFalse (fun h => Except.noConfusion h)
    | Except.error _, Except.ok _ => isFalse (fun h => Except.noConfusion h)

/-- Property access `v?.k`: objects look the key up, every other value
(including `null`/`undefined`, for which `?.` short-circuits) yields
`undefined` (`none`).  Built-in properties such as `.length` are not part
of the modelled fragment (no route reads them through dynamic access). -/
def jsGet : Json → String → Option Json
  | .obj fields, k => fields.lookup k
  | _, _ => none

/-- JavaScript truthiness. -/
def jsTruthy : Json → Bool
  | .null => false
  | .bool b => b
  | .num n => n ≠ 0
  | .str s => s ≠ ""
  | .arr _ => true
  | .obj _ => true

/-- `Array.isArray`. -/
def isJsonArray : Json → Bool
  | .arr _ => true
  | _ => false

/-- `typeof v === "object"` together with truthiness (`v && typeof v === "object"`):
true for objects and arrays, false for `null` and primitives. -/
def isObjectLike : Json → Bool
  | .obj _ => true
  | .arr _ => true
  | _ => false

/-- First value of an `a ?? b ?? ...` chain: skips absent (`none`) and
`null`/`undefined` values. -/
def firstNonNullish : List (Option Json) → Option Json
  | [] => none
  | none :: rest => firstNonNullish rest
  | some .null :: rest => firstNonNullish rest
  | some v :: _ => some v

/-- `String.prototype.trim`: strip leading and trailing whitespace
(defined structurally over the character list so that concrete instances
evaluate). -/
def jsTrim (s : String) : String :=
  String.mk (((s.data.dropWhile Char.isWhitespace).reverse.dropWhile
    Char.isWhitespace).reverse)

/-- Rendering of a JavaScript number.  Integral values print exactly as in
JavaScript; the decimal formatting of non-integral values is approximated
by the rational rendering (no theorem depends on it). -/
def numToString (n : Rat) : String :=
  if n.den = 1 then toString n.num else toString n

mutual

/-- `String(v)` / template-literal coercion. -/
def jsToString : Json → String
  | .null => "null"
  | .bool b => cond b "true" "false"
  | .num n => numToString n
  | .str s => s
  | .arr xs => jsToStringList xs
  | .obj _ => "[object Object]"

/-- `Array.prototype.toString`: elements joined by commas. -/
def jsToStringList : List Json → String
  | [] => ""
  | [x] => jsToString x
  | x :: y :: rest => jsToString x ++ "," ++ jsToStringList (y :: rest)

end

/-- JSON string quoting with the basic escapes `JSON.stringify` emits for
the characters occurring in this code base. -/
def jsonQuoteChar (c : Char) : String :=
  if c = '"' then "\\\""
  else if c = '\\' then "\\\\"
  else if c = '\n' then "\\n"
  else String.mk [c]

/-- Quoted JSON string literal. -/
def jsonQuote (s : String) : String :=
  "\"" ++ String.join (s.data.map jsonQuoteChar) ++ "\""

mutual

/-- `JSON.stringify(v)` (compact form, no indentation). -/
def stringifyCompact : Json → String
  | .null => "null"
  | .bool b => cond b "true" "false"
  | .num n => numToString n
  | .str s => jsonQuote s
  | .arr xs => "[" ++ stringifyCompactList xs ++ "]"
  | .obj fields => "\x7b" ++ stringifyCompactFields fields ++ "\x7d"

def stringifyCompactList : List Json → String
  | [] => ""
  | [x] => stringifyCompact x
  | x :: y :: rest => stringifyCompact x ++ "," ++ stringifyCompactList (y :: rest)

def stringifyCompactFields : List (String × Json) → String
  | [] => ""
  | [kv] => jsonQuote kv.1 ++ ":" ++ stringifyCompact kv.2
  | kv :: kv2 :: rest =>
      jsonQuote kv.1 ++ ":" ++ stringifyCompact kv.2 ++ "," ++
        stringifyCompactFields (kv2 :: rest)

end

/-- `n` spaces. -/
def spacesOf (n : Nat) : String :=
  String.mk (List.replicate n ' ')

mutual

/-- `JSON.stringify(v, null, 2)`: pretty form with two-space indentation,
`ind` being the indentation level of the surrounding context. -/
def stringifyPretty (ind : Nat) : Json → String
  | .null => "null"
  | .bool b => cond b "true" "false"
  | .num n => numToString n
  | .str s => jsonQuote s
  | .arr [] => "[]"
  | .arr (x :: xs) =>
      "[\n" ++ stringifyPrettyList (ind + 2) (x :: xs) ++ "\n" ++ spacesOf ind ++ "]"
  | .obj [] => "\x7b\x7d"
  | .obj (kv :: kvs) =>
      "\x7b\n" ++ stringifyPrettyFields (ind + 2) (kv :: kvs) ++ "\n" ++
        spacesOf ind ++ "\x7d"

def stringifyPrettyList (ind : Nat) : List Json → String
  | [] => ""
  | [x] => spacesOf ind ++ stringifyPretty ind x
  | x :: y :: rest =>
      spacesOf ind ++ stringifyPretty ind x ++ ",\n" ++
        stringifyPrettyList ind (y :: rest)

def stringifyPrettyFields (ind : Nat) : List (String × Json) → String
  | [] => ""
  | [kv] => spacesOf ind ++ jsonQuote kv.1 ++ ": " ++ stringifyPretty ind kv.2
  | kv :: kv2 :: rest =>
      spacesOf ind ++ jsonQuote kv.1 ++ ": " ++ stringifyPretty ind kv.2 ++ ",\n" ++
        stringifyPrettyFields ind (kv2 :: rest)

end

/-- Truncation of a JavaScript number toward zero (`ToIntegerOrInfinity`
for the finite values in the modelled fragment). -/
def ratTrunc (q : Rat) : Int :=
  Int.tdiv q.num (q.den : Int)

/-- `xs.slice(0, e)`: a negative end index counts from the end of the
array (clamped at 0), a positive one truncates to the first `e` elements. -/
def jsSlice0 (xs : List Json) (e : Rat) : List Json :=
  let ei := ratTrunc e
  if ei < 0 then xs.take ((xs.length : Int) + ei).toNat
  else xs.take ei.toNat

/-!
## Tool definitions (src/lib/default-settings.ts)

`ToolParameterProperty` values are kept as raw `Json` objects: the
TypeScript interfaces are erased at runtime and both
`normalizeToolDefinitions` and `buildZodForProperty` read the fields
dynamically.
-/

/-- `ToolParameterSchema` of default-settings.ts; `properties` is an ordered
mapping from property name to the raw property object. -/
structure ToolParameterSchema where
  type : String
  description : Option String
  properties : List (String × Json)
  required : Option (List String)
  additionalProperties : Option Bool
deriving DecidableEq, Inhabited

/-- `ToolDefinition` of default-settings.ts. -/
structure ToolDefinition where
  name : String
  description : String
  parameters : ToolParameterSchema
  strict : Option Bool
deriving DecidableEq, Inhabited

/-- `DEFAULT_TOOL_DEFINITIONS` of default-settings.ts. -/
def DEFAULT_TOOL_DEFINITIONS : List ToolDefinition :=
  [ { name := "add_memory"
    , description := "Use this tool to write memories associated with the user."
    , strict := some true
    , parameters :=
      { type := "object"
      , description := none
      , additionalProperties := some false
      , properties :=
        [ ("text", Json.obj
            [ ("type", Json.str "string")
            , ("description", Json.str "One short sentence to remember about the user")
            , ("minLength", Json.num 1) ]) ]
      , required := some ["text"] } }
  , { name := "search_memories"
    , description := "Search previously saved user memories relevant to the current query. Use to personalize answers when helpful."
    , strict := some true
    , parameters :=
      { type := "object"
      , description := none
      , additionalProperties := some false
      , properties :=
        [ ("query", Json.obj
            [ ("type", Json.str "string")
            , ("description", Json.str "What to look up about the user")
            , ("minLength", Json.num 1) ])
        , ("limit", Json.obj
            [ ("type", Json.str "integer")
            , ("description", Json.str "Maximum number of items to return")
            , ("minimum", Json.num 1) ]) ]
      , required := some ["query", "limit"] } } ]

/-!
## Tool schema builder (part_003, `buildZodForProperty` / `buildToolParameters`)

A built zod validator is modelled by its acceptance function
`Json → Bool` (`describe` only attaches metadata and does not affect
validation).  `z.object` uses zod's default unknown-key policy: a parse
succeeds when every declared key is present and valid — unknown extra
keys are stripped, not rejected.
-/

/-- `buildZodForProperty`: compiles one property object to the acceptance
function of the zod type the source builds, or throws (`Except.error`)
for an unsupported/missing `type`. -/
def buildZodForProperty (prop : Json) : Except String (Json → Bool) :=
  match jsGet prop "type" with
  | some (Json.str "string") =>
    match jsGet prop "enum" with
    | some (Json.arr (e :: es)) =>
        -- z.enum: the value must be one of the (string) enum members
        Except.ok (fun v => match v with
          | Json.str s => (e :: es).contains (Json.str s)
          | _ => false)
    | _ =>
        let minL : Option Rat := match jsGet prop "minLength" with
          | some (Json.num n) => some n
          | _ => none
        let maxL : Option Rat := match jsGet prop "maxLength" with
          | some (Json.num n) => some n
          | _ => none
        Except.ok (fun v => match v with
          | Json.str s =>
              (minL.all fun n => n ≤ (s.length : Rat)) &&
                (maxL.all fun n => (s.length : Rat) ≤ n)
          | _ => false)
  | some (Json.str "integer") =>
      let minB : Option Rat := match jsGet prop "minimum" with
        | some (Json.num n) => some n
        | _ => none
      let maxB : Option Rat := match jsGet prop "maximum" with
        | some (Json.num n) => some n
        | _ => none
      Except.ok (fun v => match v with
        | Json.num n =>
            n.den = 1 && (minB.all fun b => b ≤ n) && (maxB.all fun b => n ≤ b)
        | _ => false)
  | some (Json.str "number") =>
      let minB : Option Rat := match jsGet prop "minimum" with
        | some (Json.num n) => some n
        | _ => none
      let maxB : Option Rat := match jsGet prop "maximum" with
        | some (Json.num n) => some n
        | _ => none
      Except.ok (fun v => match v with
        | Json.num n => (minB.all fun b => b ≤ n) && (maxB.all fun b => n ≤ b)
        | _ => false)
  | some (Json.str "boolean") =>
      Except.ok (fun v => match v with
        | Json.bool _ => true
        | _ => false)
  | other => Except.error ("Unsupported parameter type: " ++
      (match other with | none => "undefined" | some j => jsToString j))

/-- The acceptance function of a property whose zod type builds
successfully (used to state theorems about the built object validator). -/
def propCheck (prop : Json) : Json → Bool :=
  match buildZodForProperty prop with
  | Except.ok f => f
  | Except.error _ => fun _ => false

/-- The `shape` record accumulated by the `for` loop of
`buildToolParameters`: each property compiled in order, aborting at the
first `SchemaError`. -/
def buildShape : List (String × Json) → Except String (List (String × (Json → Bool)))
  | [] => Except.ok []
  | kp :: rest =>
    match buildZodForProperty kp.2 with
    | Except.error e => Except.error e
    | Except.ok f =>
      match buildShape rest with
      | Except.error e => Except.error e
      | Except.ok tail => Except.ok ((kp.1, f) :: tail)

/-- Acceptance of `z.object(shape)` under zod's default unknown-key
policy: the argument must be an object and every declared key must be
present (not `undefined`) with a value accepted by its property type;
keys outside the shape are stripped and do not cause rejection. -/
def zodObjectAccepts (shape : List (String × (Json → Bool))) (j : Json) : Bool :=
  match j with
  | Json.obj _ =>
      shape.all fun kv =>
        match jsGet j kv.1 with
        | some v => kv.2 v
        | none => false
  | _ => false

/-- `buildToolParameters`: rejects non-object top-level schemas, otherwise
builds the `z.object` validator from the declared properties
(`schema.required` and `schema.additionalProperties` are not consulted,
exactly as in the source). -/
def buildToolParameters (schema : ToolParameterSchema) : Except String (Json → Bool) :=
  if schema.type ≠ "object" then
    Except.error "Tool parameter schema must be an object"
  else
    (buildShape schema.properties).map fun shape => zodObjectAccepts shape

/-- Building then running the validator on an argument object (`.error`
when the schema itself fails to build). -/
def validateArgs (schema : ToolParameterSchema) (j : Json) : Except String Bool :=
  (buildToolParameters schema).map (fun v => v j)

/-!
## Tool registry / dispatcher (part_003, `TOOL_EXECUTORS` / `buildTools`)
-/

/-- Tags for the executors present in the fixed `TOOL_EXECUTORS` table of
part_003. -/
inductive ExecutorTag where
  | addMemory : ExecutorTag
  | searchMemories : ExecutorTag
deriving DecidableEq, Inhabited

/-- `TOOL_EXECUTORS[name]`: the fixed, statically-known executor table. -/
def lookupExecutor : String → Option ExecutorTag
  | "add_memory" => some ExecutorTag.addMemory
  | "search_memories" => some ExecutorTag.searchMemories
  | _ => none

/-- An assembled executable tool: name, description, executor and the
built parameter validator. -/
structure BuiltTool where
  name : String
  description : String
  executor : ExecutorTag
  validator : Json → Bool

/-- The error message thrown by `buildTools` for an unknown tool name. -/
def unsupportedToolMessage (index : Nat) (name : String) : String :=
  "Unsupported tool name at index " ++ toString index ++ ": " ++ name

/-- The `definitions.map` body of `buildTools`, with `index` the position
of the head of the remaining list; the first thrown error aborts the
whole map. -/
def buildToolsAux (index : Nat) : List ToolDefinition → Except String (List BuiltTool)
  | [] => Except.ok []
  | d :: rest =>
    match lookupExecutor d.name with
    | none => Except.error (unsupportedToolMessage index d.name)
    | some ex =>
      match buildToolParameters d.parameters with
      | Except.error e => Except.error e
      | Except.ok v =>
        match buildToolsAux (index + 1) rest with
        | Except.error e => Except.error e
        | Except.ok ts =>
            Except.ok ({ name := d.name, description := d.description
                       , executor := ex, validator := v } :: ts)

/-- `buildTools` of part_003. -/
def buildTools (definitions : List ToolDefinition) : Except String (List BuiltTool) :=
  buildToolsAux 0 definitions

/-!
## Tool definition normalization (part_003, `normalizeToolDefinitions`)
-/

/-- `Object.entries`: fields of an object, index/character entries of
arrays and strings, empty for other primitives. -/
def jsEntries : Json → List (String × Json)
  | Json.obj fields => fields
  | Json.arr xs => xs.mapIdx fun i v => (toString i, v)
  | Json.str s => s.data.mapIdx fun i c => (toString i, Json.str (String.mk [c]))
  | _ => []

/-- The property-cloning loop of `normalizeToolDefinitions`: every
property value must be a truthy object, otherwise the parse throws.  The
spread-clone (`{...propValue, enum: propValue.enum ? [...] : undefined}`)
is value-preserving for property bags of the declared interface shape and
is modelled as the identity. -/
def checkProperties (name : String) : List (String × Json) → Except String (List (String × Json))
  | [] => Except.ok []
  | (k, v) :: rest =>
    if isObjectLike v = false then
      Except.error ("Tool definition for " ++ name ++ " has an invalid parameter: " ++ k ++ ".")
    else
      match checkProperties name rest with
      | Except.error e => Except.error e
      | Except.ok tail => Except.ok ((k, v) :: tail)

/-- Normalization of a single entry of the submitted tool-definition
array (`input.map` body of `normalizeToolDefinitions`). -/
def normalizeToolDefinition (index : Nat) (item : Json) : Except String ToolDefinition :=
  if isObjectLike item = false then
    Except.error ("Tool definition at index " ++ toString index ++ " must be an object.")
  else
    match jsGet item "name" with
    | some (Json.str name) =>
      if jsTrim name = "" then
        Except.error ("Tool definition at index " ++ toString index ++ " is missing a valid name.")
      else
        match jsGet item "description" with
        | some (Json.str description) =>
          if jsTrim description = "" then
            Except.error ("Tool definition for " ++ name ++ " is missing a valid description.")
          else
            match jsGet item "parameters" with
            | some parameters =>
              if isObjectLike parameters = false then
                Except.error ("Tool definition for " ++ name ++ " is missing parameters.")
              else if jsGet parameters "type" ≠ some (Json.str "object") then
                Except.error ("Tool definition for " ++ name ++ " must use an object schema.")
              else
                let rawProperties : List (String × Json) :=
                  match jsGet parameters "properties" with
                  | some v => if jsTruthy v then jsEntries v else []
                  | none => []
                match checkProperties name rawProperties with
                | Except.error e => Except.error e
                | Except.ok clonedProperties =>
                  let propertyKeys := clonedProperties.map Prod.fst
                  if propertyKeys.isEmpty then
                    Except.error ("Tool definition for " ++ name ++ " must include at least one parameter.")
                  else
                    Except.ok
                      { name := name
                      , description := description
                      , parameters :=
                        { type := "object"
                        , description :=
                            match jsGet parameters "description" with
                            | some (Json.str s) => some s
                            | _ => none
                        , properties := clonedProperties
                        , required := some propertyKeys
                        , additionalProperties :=
                            match jsGet parameters "additionalProperties" with
                            | some (Json.bool b) => some b
                            | _ => none }
                      , strict :=
                          match jsGet item "strict" with
                          | some (Json.bool b) => some b
                          | _ => none }
            | none => Except.error ("Tool definition for " ++ name ++ " is missing parameters.")
        | _ => Except.error ("Tool definition for " ++ name ++ " is missing a valid description.")
    | _ => Except.error ("Tool definition at index " ++ toString index ++ " is missing a valid name.")

/-- The indexed `input.map` loop of `normalizeToolDefinitions`. -/
def normalizeToolDefinitionsAux (index : Nat) : List Json → Except String (List ToolDefinition)
  | [] => Except.ok []
  | item :: rest =>
    match normalizeToolDefinition index item with
    | Except.error e => Except.error e
    | Except.ok d =>
      match normalizeToolDefinitionsAux (index + 1) rest with
      | Except.error e => Except.error e
      | Except.ok tail => Except.ok (d :: tail)

/-- `normalizeToolDefinitions` of part_003. -/
def normalizeToolDefinitions (input : Json) : Except String (List ToolDefinition) :=
  match input with
  | Json.arr items => normalizeToolDefinitionsAux 0 items
  | _ => Except.error "Tool definitions must be an array."

/-!
## Message history and the /chat POST handlers

`ChatOutcome` captures how far a request gets: `errorResp` is a JSON
error envelope returned to the HTTP caller, `modelRun` is the single
`run(agent, history, ...)` invocation (the model call) with the history
it is handed.  A request whose outcome is `errorResp` never issues a
model call.
-/

/-- An Agents-SDK input item produced from a UI message. -/
inductive HistoryItem where
  | user (content : String) : HistoryItem
  | assistant (content : String) : HistoryItem
  | system (content : String) : HistoryItem
deriving DecidableEq, Inhabited

/-- Outcome of a /chat POST handler. -/
inductive ChatOutcome where
  | errorResp (status : Nat) (message : String) : ChatOutcome
  | modelRun (history : List HistoryItem) : ChatOutcome
deriving DecidableEq, Inhabited

/-- History translation shared by route.ts and part_003: keep the entries
that are truthy and have string `role` and string `content`, map
`assistant` to an assistant item and any other role to a user item. -/
def chatHistoryRoute (messages : List Json) : List HistoryItem :=
  (messages.filter fun m =>
      jsTruthy m &&
      (match jsGet m "role" with | some (Json.str _) => true | _ => false) &&
      (match jsGet m "content" with | some (Json.str _) => true | _ => false)).map
    fun m =>
      let content := match jsGet m "content" with
        | some (Json.str s) => s
        | _ => ""
      if jsGet m "role" = some (Json.str "assistant") then HistoryItem.assistant content
      else HistoryItem.user content

/-- POST of src/app/api/chat/route.ts, up to the model call: extract
`messages` (non-arrays become `[]`), fail 500 without an API key, then
run the agent on the filtered history.  There is no emptiness check on
the message list. -/
def chatPOSTRoute (hasOpenAIKey : Bool) (messagesField : Option Json) : ChatOutcome :=
  let messages := match messagesField with
    | some (Json.arr xs) => xs
    | _ => []
  if hasOpenAIKey then ChatOutcome.modelRun (chatHistoryRoute messages)
  else ChatOutcome.errorResp 500 "Missing OPENAI_API_KEY"

/-- POST of part_003 after the tool definitions have been resolved
(either the normalized request payload or `DEFAULT_TOOL_DEFINITIONS`):
`buildTools` failures are returned as a 400 error envelope before the
API-key check and before any model call. -/
def chatPOST3Core (defs : List ToolDefinition) (messages : List Json)
    (hasOpenAIKey : Bool) : ChatOutcome :=
  match buildTools defs with
  | Except.error m => ChatOutcome.errorResp 400 m
  | Except.ok _ =>
    if hasOpenAIKey then ChatOutcome.modelRun (chatHistoryRoute messages)
    else ChatOutcome.errorResp 500 "Missing OPENAI_API_KEY"

/-- POST of part_003, up to the model call. -/
def chatPOST3 (toolDefinitionsField : Option Json) (messagesField : Option Json)
    (hasOpenAIKey : Bool) : ChatOutcome :=
  let messages := match messagesField with
    | some (Json.arr xs) => xs
    | _ => []
  match toolDefinitionsField with
  | none => chatPOST3Core DEFAULT_TOOL_DEFINITIONS messages hasOpenAIKey
  | some td =>
    match normalizeToolDefinitions td with
    | Except.error m => ChatOutcome.errorResp 400 m
    | Except.ok defs => chatPOST3Core defs messages hasOpenAIKey

/-- `toAgentHistory` of part_002: coalesce `content ?? text ?? ""`,
stringify it, skip empty contents and unknown roles.  Iterating over a
`null` entry throws (`m.content` on `null`), which the surrounding
handler turns into a 500. -/
def toAgentHistory : List Json → Except String (List HistoryItem)
  | [] => Except.ok []
  | m :: rest =>
    if m = Json.null then Except.error "Cannot read properties of null"
    else
      let contentValue := match firstNonNullish [jsGet m "content", jsGet m "text"] with
        | some v => v
        | none => Json.str ""
      let content := jsToString contentValue
      match toAgentHistory rest with
      | Except.error e => Except.error e
      | Except.ok tail =>
        if content = "" then Except.ok tail
        else if jsGet m "role" = some (Json.str "user") then
          Except.ok (HistoryItem.user content :: tail)
        else if jsGet m "role" = some (Json.str "assistant") then
          Except.ok (HistoryItem.assistant content :: tail)
        else if jsGet m "role" = some (Json.str "system") then
          Except.ok (HistoryItem.system content :: tail)
        else Except.ok tail

/-- POST of part_002, up to the model call: an empty translated history is
rejected with a 400 `"No messages provided"` envelope before the model
call; a throw during translation becomes a 500. -/
def chatPOST2 (messages : List Json) : ChatOutcome :=
  match toAgentHistory messages with
  | Except.error e => ChatOutcome.errorResp 500 e
  | Except.ok [] => ChatOutcome.errorResp 400 "No messages provided"
  | Except.ok history => ChatOutcome.modelRun history

/-!
## Memory gateway executors
-/

/-- The guarded extraction `Array.isArray(raw?.k)` used by the envelope
normalization: the elements when field `k` holds an array, else `none`. -/
def fieldArray (raw : Json) (k : String) : Option (List Json) :=
  match jsGet raw k with
  | some (Json.arr xs) => some xs
  | _ => none

/-- Envelope normalization shared by all `search_memories` executors and
the /push/memories handler: a raw array, else the first of `.results`,
`.memories`, `.data` that is an array, else the empty list. -/
def normalizeSearchItems (raw : Json) : List Json :=
  match raw with
  | Json.arr xs => xs
  | _ =>
    match fieldArray raw "results" with
    | some xs => xs
    | none =>
      match fieldArray raw "memories" with
      | some xs => xs
      | none =>
        match fieldArray raw "data" with
        | some xs => xs
        | none => []

/-- Per-item summary extraction:
`m?.memory ?? m?.data?.memory ?? m?.text ?? m?.content ?? (typeof m === "string" ? m : JSON.stringify(m))`. -/
def searchMemoriesSummary (m : Json) : Json :=
  match firstNonNullish
      [ jsGet m "memory"
      , (jsGet m "data").bind (fun d => jsGet d "memory")
      , jsGet m "text"
      , jsGet m "content" ] with
  | some v => v
  | none =>
    match m with
    | Json.str s => Json.str s
    | other => Json.str (stringifyCompact other)

/-- The limit application of the part_003 chat executor:
`typeof input.limit === "number" ? input.limit : undefined`, then
`limit ? items.slice(0, limit) : items` — a missing, non-numeric or zero
limit leaves the normalized list untruncated. -/
def searchLimitedP3 (items : List Json) (limitArg : Option Json) : List Json :=
  match limitArg with
  | some (Json.num n) => if n = 0 then items else jsSlice0 items n
  | _ => items

/-- `search_memories` executor of part_003 (route.ts differs only in
reading `input.limit` directly, with identical truthiness handling).
`storeResult` is the outcome of the awaited `mem0.search` call. -/
def searchMemoriesExecChat (contextUserId : Option String) (limitArg : Option Json)
    (storeResult : Except String Json) : String :=
  match contextUserId with
  | none => "No userId provided; open settings and set a user id."
  | some _ =>
    match storeResult with
    | Except.error e => "Failed to search memories: " ++ e
    | Except.ok raw =>
      let items := normalizeSearchItems raw
      let limited := searchLimitedP3 items limitArg
      let summaries := limited.map searchMemoriesSummary
      stringifyPretty 0 (Json.obj
        [ ("ok", Json.bool true)
        , ("count", Json.num (items.length : Rat))
        , ("memories", Json.arr summaries) ])

/-- The zod limit parameter of the part_004 nudge-route
`search_memories` tool: `z.number().int().min(1).max(25).default(10)` —
a missing limit defaults to 10, provided limits must be integers in
1..25. -/
def validateLimitP4 : Option Rat → Except String Rat
  | none => Except.ok 10
  | some n =>
    if n.den = 1 ∧ 1 ≤ n ∧ n ≤ 25 then Except.ok n
    else Except.error "Invalid limit"

/-- `search_memories` executor of the part_004 nudge route: errors (and
the missing-user case) are returned as compact JSON `{ok:false,error}`
strings, success as compact JSON `{ok,count,memories}`. -/
def searchMemoriesExecNudge (contextUserId : Option String) (limit : Rat)
    (storeResult : Except String Json) : String :=
  match contextUserId with
  | none => stringifyCompact (Json.obj
      [("ok", Json.bool false), ("error", Json.str "No userId in context.")])
  | some _ =>
    match storeResult with
    | Except.error e => stringifyCompact (Json.obj
        [("ok", Json.bool false), ("error", Json.str e)])
    | Except.ok raw =>
      let items := normalizeSearchItems raw
      let limited := jsSlice0 items limit
      let normalized := limited.map searchMemoriesSummary
      stringifyCompact (Json.obj
        [ ("ok", Json.bool true)
        , ("count", Json.num (items.length : Rat))
        , ("memories", Json.arr normalized) ])

/-- The queued acknowledgement payload returned by `add_memory`:
`JSON.stringify({ ok: true, queued: true }, null, 2)`. -/
def addMemoryAck : String :=
  stringifyPretty 0 (Json.obj [("ok", Json.bool true), ("queued", Json.bool true)])

/-- `String(input.text ?? "")` of the part_003 `add_memory` executor. -/
def addMemoryText (textArg : Option Json) : String :=
  match firstNonNullish [textArg] with
  | some v => jsToString v
  | none => ""

/-- `add_memory` executor of part_003.  The detached write is modelled by
`writeOutcome`, the eventual result of the fire-and-forget `mem0.add`
call: the first component is the tool result handed back to the run
(computed before the write executes), the second the log lines the
detached task later emits.  A write failure is only logged. -/
def addMemoryExec (contextUserId : Option String) (textArg : Option Json)
    (writeOutcome : Except String Unit) : String × List String :=
  match contextUserId with
  | none => ("No userId provided; open settings and set a user id.", [])
  | some _ =>
    let text := addMemoryText textArg
    if jsTrim text = "" then ("Cannot add empty memory.", [])
    else
      (addMemoryAck,
        match writeOutcome with
        | Except.ok _ => []
        | Except.error e => ["Async memory write failed: " ++ e])

/-!
## Usage aggregation (route.ts / part_003, lines summing rawResponses)
-/

/-- The usage counters of one SDK raw response (`inputTokens` /
`outputTokens` and the cached-token counter the upstream call reported);
the spec's data model declares them optional non-negative integers. -/
structure SDKUsage where
  inputTokens : Option Nat
  outputTokens : Option Nat
  cachedTokens : Option Nat
deriving DecidableEq, Inhabited

/-- One entry of `result.rawResponses` (the usage object may be absent). -/
structure RawModelResponse where
  usage : Option SDKUsage
deriving DecidableEq, Inhabited

/-- `Number(r.usage.inputTokens || 0)` guarded by `if (r?.usage)`. -/
def promptContribution (r : RawModelResponse) : Nat :=
  match r.usage with
  | some u => u.inputTokens.getD 0
  | none => 0

/-- `Number(r.usage.outputTokens || 0)` guarded by `if (r?.usage)`. -/
def completionContribution (r : RawModelResponse) : Nat :=
  match r.usage with
  | some u => u.outputTokens.getD 0
  | none => 0

/-- The `forEach` accumulation over `result.rawResponses` of route.ts and
part_003: running `(promptTokens, completionTokens)` totals. -/
def aggregateUsage (rs : List RawModelResponse) : Nat × Nat :=
  rs.foldl
    (fun acc r =>
      match r.usage with
      | some u => (acc.1 + u.inputTokens.getD 0, acc.2 + u.outputTokens.getD 0)
      | none => acc)
    (0, 0)

/-- The `usage` object of the successful /chat response. -/
structure ChatUsageOut where
  promptTokens : Nat
  completionTokens : Nat
  cachedTokens : Nat
deriving DecidableEq, Inhabited

/-- The `usage` field built by route.ts / part_003 for a successful run:
aggregated prompt/completion totals and a hardcoded `cachedTokens: 0`. -/
def chatUsageResponse (rs : List RawModelResponse) : ChatUsageOut :=
  { promptTokens := (aggregateUsage rs).1
  , completionTokens := (aggregateUsage rs).2
  , cachedTokens := 0 }

/-!
## Helper definitions and lemmas for the claim theorems
-/

/-- Whether an `Except` computation succeeded. -/
def exceptOk {ε α : Type} : Except ε α → Bool
  | Except.ok _ => true
  | Except.error _ => false

lemma buildShape_of_ok (props : List (String × Json))
    (h : ∀ kp ∈ props, exceptOk (buildZodForProperty kp.2) = true) :
    buildShape props = Except.ok (props.map fun kp => (kp.1, propCheck kp.2)) := by
  induction props with
  | nil => rfl
  | cons kp rest ih =>
    have h1 := h kp (List.mem_cons_self _ _)
    obtain ⟨f, hf⟩ : ∃ f, buildZodForProperty kp.2 = Except.ok f := by
      cases hb : buildZodForProperty kp.2 with
      | ok f => exact ⟨f, rfl⟩
      | error e => rw [hb] at h1; simp [exceptOk] at h1
    have hrest := ih fun x hx => h x (List.mem_cons_of_mem _ hx)
    simp only [buildShape, hf, hrest, List.map_cons]
    have hpc : propCheck kp.2 = f := by simp [propCheck, hf]
    rw [hpc]

lemma aggregateUsage_eq (rs : List RawModelResponse) :
    aggregateUsage rs =
      ((rs.map promptContribution).sum, (rs.map completionContribution).sum) := by
  suffices h : ∀ a b : Nat,
      rs.foldl
        (fun acc r =>
          match r.usage with
          | some u => (acc.1 + u.inputTokens.getD 0, acc.2 + u.outputTokens.getD 0)
          | none => acc)
        (a, b) =
      (a + (rs.map promptContribution).sum, b + (rs.map completionContribution).sum) by
    simpa [aggregateUsage] using h 0 0
  induction rs with
  | nil => intro a b; simp
  | cons r rest ih =>
    intro a b
    cases hu : r.usage with
    | none =>
        simp [List.foldl_cons, hu, ih, promptContribution, completionContribution,
          Nat.add_assoc]
    | some u =>
        simp [List.foldl_cons, hu, ih, promptContribution, completionContribution,
          Nat.add_assoc]

lemma jsSlice0_pos_int (xs : List Json) (l : Rat) (hpos : 0 < l) (hden : l.den = 1) :
    jsSlice0 xs l = xs.take l.num.toNat := by
  have hnum : 0 < l.num := Rat.num_pos.mpr hpos
  unfold jsSlice0 ratTrunc
  rw [hden]
  simp only [Int.natCast_one, Int.tdiv_one]
  rw [if_neg (by omega)]

lemma normalizeToolDefinition_invariant (index : Nat) (item : Json) (d : ToolDefinition)
    (h : normalizeToolDefinition index item = Except.ok d) :
    d.parameters.properties ≠ [] ∧
    d.parameters.required = some (d.parameters.properties.map Prod.fst) := by
  unfold normalizeToolDefinition at h
  by_cases h1 : isObjectLike item = false
  · rw [if_pos h1] at h; cases h
  · rw [if_neg h1] at h
    cases hn : jsGet item "name" with
    | none => rw [hn] at h; cases h
    | some nv =>
      rw [hn] at h
      cases nv with
      | null => simp at h
      | bool b => simp at h
      | num n => simp at h
      | arr xs => simp at h
      | obj fs => simp at h
      | str name =>
      dsimp only at h
      by_cases h2 : jsTrim name = ""
      · rw [if_pos h2] at h; cases h
      · rw [if_neg h2] at h
        cases hds : jsGet item "description" with
        | none => rw [hds] at h; cases h
        | some dv =>
          rw [hds] at h
          cases dv with
          | null => simp at h
          | bool b => simp at h
          | num n => simp at h
          | arr xs => simp at h
          | obj fs => simp at h
          | str description =>
          dsimp only at h
          by_cases h3 : jsTrim description = ""
          · rw [if_pos h3] at h; cases h
          · rw [if_neg h3] at h
            cases hp : jsGet item "parameters" with
            | none => rw [hp] at h; cases h
            | some parameters =>
              rw [hp] at h
              dsimp only at h
              by_cases h4 : isObjectLike parameters = false
              · rw [if_pos h4] at h; cases h
              · rw [if_neg h4] at h
                by_cases h5 : jsGet parameters "type" ≠ some (Json.str "object")
                · rw [if_pos h5] at h; cases h
                · rw [if_neg h5] at h
                  cases hcp : checkProperties name
                      (match jsGet parameters "properties" with
                        | some v => if jsTruthy v then jsEntries v else []
                        | none => []) with
                  | error e => rw [hcp] at h; cases h
                  | ok clonedProperties =>
                    rw [hcp] at h
                    dsimp only at h
                    by_cases h6 : (clonedProperties.map Prod.fst).isEmpty
                    · rw [if_pos h6] at h; cases h
                    · rw [if_neg h6] at h
                      injection h with h7
                      subst h7
                      refine ⟨?_, rfl⟩
                      intro hempty
                      have hempty2 : clonedProperties = [] := hempty
                      rw [hempty2] at h6
                      exact h6 (by simp)

lemma normalizeToolDefinitionsAux_invariant (index : Nat) (items : List Json)
    (defs : List ToolDefinition)
    (h : normalizeToolDefinitionsAux index items = Except.ok defs) :
    ∀ d ∈ defs, d.parameters.properties ≠ [] ∧
      d.parameters.required = some (d.parameters.properties.map Prod.fst) := by
  induction items generalizing index defs with
  | nil =>
    unfold normalizeToolDefinitionsAux at h
    cases h
    intro d hd
    simp at hd
  | cons item rest ih =>
    unfold normalizeToolDefinitionsAux at h
    cases hd0 : normalizeToolDefinition index item with
    | error e => rw [hd0] at h; cases h
    | ok d0 =>
      rw [hd0] at h
      cases htail : normalizeToolDefinitionsAux (index + 1) rest with
      | error e => rw [htail] at h; cases h
      | ok tail =>
        rw [htail] at h
        cases h
        intro d hd
        rcases List.mem_cons.mp hd with hhead | hmem
        · exact hhead ▸ normalizeToolDefinition_invariant index item d0 hd0
        · exact ih (index + 1) tail htail d hmem

lemma buildToolsAux_unknown_name (defs : List ToolDefinition) (i k : Nat)
    (d : ToolDefinition)
    (hget : defs[i]? = some d)
    (hname : lookupExecutor d.name = none)
    (hpre : ∀ j, j < i →
      lookupExecutor (defs.getD j default).name ≠ none ∧
      exceptOk (buildToolParameters (defs.getD j default).parameters) = true) :
    buildToolsAux k defs = Except.error (unsupportedToolMessage (k + i) d.name) := by
  induction defs generalizing i k with
  | nil => simp at hget
  | cons d0 rest ih =>
    cases i with
    | zero =>
      have hd : d0 = d := by simpa using hget
      subst hd
      simp only [buildToolsAux, hname, Nat.add_zero]
    | succ i2 =>
      obtain ⟨hl0, hb0⟩ := hpre 0 (Nat.succ_pos _)
      have hl0 : lookupExecutor d0.name ≠ none := hl0
      have hb0 : exceptOk (buildToolParameters d0.parameters) = true := hb0
      obtain ⟨ex, hex⟩ : ∃ ex, lookupExecutor d0.name = some ex := by
        cases hle : lookupExecutor d0.name with
        | none => exact absurd hle hl0
        | some ex => exact ⟨ex, rfl⟩
      obtain ⟨v, hv⟩ : ∃ v, buildToolParameters d0.parameters = Except.ok v := by
        cases hbp : buildToolParameters d0.parameters with
        | ok v => exact ⟨v, rfl⟩
        | error e => rw [hbp] at hb0; simp [exceptOk] at hb0
      have hget2 : rest[i2]? = some d := by simpa using hget
      have hpre2 : ∀ j, j < i2 →
          lookupExecutor (rest.getD j default).name ≠ none ∧
          exceptOk (buildToolParameters (rest.getD j default).parameters) = true := by
        intro j hj
        simpa using hpre (j + 1) (by omega)
      have hrec := ih i2 (k + 1) hget2 hpre2
      have harith : k + 1 + i2 = k + (i2 + 1) := by omega
      rw [harith] at hrec
      simp only [buildToolsAux, hex, hv, hrec]

/-!
## Claim theorems
-/

/-- C2: for every upstream response value, `search_memories` normalizes it
to a flat list before summarizing — a raw array becomes the item list; a
non-array whose `results` field is an array yields that array; failing
that, an array-valued `memories` field; failing that, an array-valued
`data` field; every other response shape yields the empty list. -/
theorem c2_search_normalization (raw : Json) :
    (∀ xs, raw = Json.arr xs → normalizeSearchItems raw = xs) ∧
    (isJsonArray raw = false →
      ∀ xs, fieldArray raw "results" = some xs → normalizeSearchItems raw = xs) ∧
    (isJsonArray raw = false → fieldArray raw "results" = none →
      ∀ xs, fieldArray raw "memories" = some xs → normalizeSearchItems raw = xs) ∧
    (isJsonArray raw = false → fieldArray raw "results" = none →
      fieldArray raw "memories" = none →
      ∀ xs, fieldArray raw "data" = some xs → normalizeSearchItems raw = xs) ∧
    (isJsonArray raw = false → fieldArray raw "results" = none →
      fieldArray raw "memories" = none → fieldArray raw "data" = none →
      normalizeSearchItems raw = []) := by
  refine ⟨?_, ?_, ?_, ?_, ?_⟩
  · intro xs h; subst h; rfl
  · intro hna xs h
    cases raw <;> simp_all [normalizeSearchItems, isJsonArray]
  · intro hna h1 xs h
    cases raw <;> simp_all [normalizeSearchItems, isJsonArray]
  · intro hna h1 h2 xs h
    cases raw <;> simp_all [normalizeSearchItems, isJsonArray]
  · intro hna h1 h2 h3
    cases raw <;> simp_all [normalizeSearchItems, isJsonArray]

/-- C2 witness: the four envelope shapes and an unrecognized shape at
concrete inputs. -/
theorem c2_search_normalization_witness :
    normalizeSearchItems (Json.arr [Json.str "likes CTV"]) = [Json.str "likes CTV"] ∧
    normalizeSearchItems (Json.obj [("results", Json.arr [Json.str "a"])]) = [Json.str "a"] ∧
    normalizeSearchItems (Json.obj [("memories", Json.arr [Json.str "b"])]) = [Json.str "b"] ∧
    normalizeSearchItems (Json.obj [("data", Json.arr [Json.str "c"])]) = [Json.str "c"] ∧
    normalizeSearchItems (Json.obj [("weird", Json.num 1)]) = [] := by
  refine ⟨?_, ?_, ?_, ?_, ?_⟩
  · exact (c2_search_normalization (Json.arr [Json.str "likes CTV"])).1 _ rfl
  · exact (c2_search_normalization (Json.obj [("results", Json.arr [Json.str "a"])])).2.1
      (by decide) _ (by decide)
  · exact (c2_search_normalization (Json.obj [("memories", Json.arr [Json.str "b"])])).2.2.1
      (by decide) (by decide) _ (by decide)
  · exact (c2_search_normalization (Json.obj [("data", Json.arr [Json.str "c"])])).2.2.2.1
      (by decide) (by decide) (by decide) _ (by decide)
  · exact (c2_search_normalization (Json.obj [("weird", Json.num 1)])).2.2.2.2
      (by decide) (by decide) (by decide) (by decide)

/-- C4 (amended): only the part_002 chat handler rejects a message list
that is empty, or empty after filtering malformed entries, with a 400
validation error before any model call; the route.ts and part_003
handlers run the model on the empty history instead (see the
counterexample). -/
theorem c4_part002_rejects_empty_messages (messages : List Json)
    (h : toAgentHistory messages = Except.ok []) :
    chatPOST2 messages = ChatOutcome.errorResp 400 "No messages provided" := by
  simp [chatPOST2, h]

/-- C4 witness: a list whose only entry is filtered out (empty content)
is rejected by the part_002 handler. -/
theorem c4_part002_rejects_empty_messages_witness :
    chatPOST2 [Json.obj [("role", Json.str "user"), ("content", Json.str "")]] =
      ChatOutcome.errorResp 400 "No messages provided" :=
  c4_part002_rejects_empty_messages _ (by decide)

/-- C4 counterexample: the route.ts handler, given an empty message list
and a configured API key, issues a model call with an empty history — it
is not rejected with a validation error before the model call. -/
theorem c4_route_allows_empty_messages :
    chatPOSTRoute true (some (Json.arr [])) = ChatOutcome.modelRun [] := by decide

/-- C6: when a userId is present and the text is non-empty after trim,
`add_memory` returns the queued-acknowledgement payload; the returned
tool result is independent of the outcome of the detached storage write,
and a write failure is only logged. -/
theorem c6_add_memory_queued_ack (uid : String) (textArg : Option Json)
    (h : jsTrim (addMemoryText textArg) ≠ "")
    (o1 o2 : Except String Unit) :
    (addMemoryExec (some uid) textArg o1).1 = addMemoryAck ∧
    (addMemoryExec (some uid) textArg o1).1 = (addMemoryExec (some uid) textArg o2).1 ∧
    (∀ e, addMemoryExec (some uid) textArg (Except.error e) =
      (addMemoryAck, ["Async memory write failed: " ++ e])) := by
  refine ⟨?_, ?_, ?_⟩
  · cases o1 <;> simp [addMemoryExec, h]
  · cases o1 <;> cases o2 <;> simp [addMemoryExec, h]
  · intro e; simp [addMemoryExec, h]

/-- C6 witness: a concrete queued acknowledgement, identical whether the
detached write later succeeds or fails. -/
theorem c6_add_memory_queued_ack_witness :
    (addMemoryExec (some "u1") (some (Json.str "likes CTV")) (Except.ok ())).1 =
      addMemoryAck :=
  (c6_add_memory_queued_ack "u1" (some (Json.str "likes CTV")) (by decide)
    (Except.ok ()) (Except.error "down")).1

/-- C7 (amended): every memory-store error raised during a
`search_memories` execution is caught and returned as a textual tool
result — the chat-route executors (route.ts / part_003) return
`"Failed to search memories: <reason>"`, while the part_004 nudge-route
executor returns the compact JSON payload `{ok:false,error:<reason>}`;
no executor rethrows. -/
theorem c7_search_errors_conversational :
    (∀ (uid : String) (limitArg : Option Json) (e : String),
      searchMemoriesExecChat (some uid) limitArg (Except.error e) =
        "Failed to search memories: " ++ e) ∧
    (∀ (uid : String) (limit : Rat) (e : String),
      searchMemoriesExecNudge (some uid) limit (Except.error e) =
        stringifyCompact (Json.obj [("ok", Json.bool false), ("error", Json.str e)])) :=
  ⟨fun _ _ _ => rfl, fun _ _ _ => rfl⟩

/-- C7 counterexample: the part_004 nudge-route executor converts a store
error into a JSON error payload, not a string of the form
`"Failed to search memories: <reason>"`. -/
theorem c7_nudge_error_shape :
    searchMemoriesExecNudge (some "u") 10 (Except.error "boom") =
      "\x7b\"ok\":false,\"error\":\"boom\"\x7d" ∧
    List.isPrefixOf ("Failed to search memories: ").data
      (searchMemoriesExecNudge (some "u") 10 (Except.error "boom")).data = false :=
  ⟨by decide, by decide⟩

/-- C8: the usage aggregation of route.ts / part_003 is a pure sum —
order-independent (invariant under permutation of the snapshots) and
associative (aggregating an appended split equals combining the
aggregates componentwise). -/
theorem c8_aggregate_order_independent (l1 l2 a b : List RawModelResponse)
    (hp : l1.Perm l2) :
    aggregateUsage l1 = aggregateUsage l2 ∧
    (aggregateUsage (a ++ b)).1 = (aggregateUsage a).1 + (aggregateUsage b).1 ∧
    (aggregateUsage (a ++ b)).2 = (aggregateUsage a).2 + (aggregateUsage b).2 := by
  refine ⟨?_, ?_, ?_⟩
  · rw [aggregateUsage_eq, aggregateUsage_eq]
    rw [(hp.map promptContribution).sum_eq, (hp.map completionContribution).sum_eq]
  · simp [aggregateUsage_eq]
  · simp [aggregateUsage_eq]

/-- C8 witness: two concrete snapshot lists that are permutations of each
other aggregate to the same totals. -/
theorem c8_aggregate_order_independent_witness :
    aggregateUsage
        [⟨some ⟨some 3, some 4, some 9⟩⟩, ⟨none⟩, ⟨some ⟨none, some 1, none⟩⟩] =
      aggregateUsage
        [⟨some ⟨none, some 1, none⟩⟩, ⟨some ⟨some 3, some 4, some 9⟩⟩, ⟨none⟩] :=
  (c8_aggregate_order_independent _ _ [] [] (by decide)).1

/-- C10: for every successful /chat run the usage object reports
`cachedTokens` as exactly 0, regardless of the cached-token counters the
upstream responses carried; only `promptTokens` and `completionTokens`
reflect the aggregated upstream counters. -/
theorem c10_cached_tokens_zero : ∀ rs : List RawModelResponse,
    (chatUsageResponse rs).cachedTokens = 0 ∧
    (chatUsageResponse rs).promptTokens = (rs.map promptContribution).sum ∧
    (chatUsageResponse rs).completionTokens = (rs.map completionContribution).sum := by
  intro rs
  refine ⟨rfl, ?_, ?_⟩ <;> simp [chatUsageResponse, aggregateUsage_eq]

/-- C5 (amended): with a provided positive (integral) limit, every
`search_memories` variant returns the normalized item list truncated to
the first `limit` entries, hence never more than `limit` items.  The
default of 10 and the hard cap of 25 exist only in the part_004
parameter schema (`validateLimitP4`), whose accepted limits always yield
at most 25 items; the part_003 executor applies no default — an absent
limit returns the full normalized list (see the counterexample). -/
theorem c5_limit_truncation (raw : Json) (l : Rat) (hpos : 0 < l) (hden : l.den = 1)
    (lopt : Option Rat) (l4 : Rat) (h4 : validateLimitP4 lopt = Except.ok l4) :
    searchLimitedP3 (normalizeSearchItems raw) (some (Json.num l)) =
      (normalizeSearchItems raw).take l.num.toNat ∧
    (searchLimitedP3 (normalizeSearchItems raw) (some (Json.num l))).length ≤ l.num.toNat ∧
    (1 ≤ l4 ∧ l4 ≤ 25 ∧ (lopt = none → l4 = 10)) ∧
    (jsSlice0 (normalizeSearchItems raw) l4).length ≤ 25 := by
  have hne : l ≠ 0 := ne_of_gt hpos
  have hslice := jsSlice0_pos_int (normalizeSearchItems raw) l hpos hden
  have hP3 : searchLimitedP3 (normalizeSearchItems raw) (some (Json.num l)) =
      (normalizeSearchItems raw).take l.num.toNat := by
    simp [searchLimitedP3, hne, hslice]
  have h4facts : (1 : Rat) ≤ l4 ∧ l4 ≤ 25 ∧ l4.den = 1 ∧ (lopt = none → l4 = 10) := by
    cases lopt with
    | none =>
      have hl4 : l4 = 10 := by
        have := h4
        unfold validateLimitP4 at this
        dsimp only at this
        exact (Except.ok.inj this).symm
      subst hl4
      refine ⟨by norm_num, by norm_num, by norm_num, fun _ => rfl⟩
    | some n =>
      unfold validateLimitP4 at h4
      dsimp only at h4
      by_cases hc : n.den = 1 ∧ 1 ≤ n ∧ n ≤ 25
      · rw [if_pos hc] at h4
        have hl4 : n = l4 := Except.ok.inj h4
        subst hl4
        exact ⟨hc.2.1, hc.2.2, hc.1, fun hcontra => Option.noConfusion hcontra⟩
      · rw [if_neg hc] at h4
        exact absurd h4 (by simp)
  obtain ⟨h1, h25, hden4, hdefault⟩ := h4facts
  have hpos4 : 0 < l4 := lt_of_lt_of_le (by norm_num) h1
  have hslice4 := jsSlice0_pos_int (normalizeSearchItems raw) l4 hpos4 hden4
  have hnum25 : l4.num ≤ 25 := by
    have hcast : (l4.num : Rat) = l4 := Rat.coe_int_num_of_den_eq_one hden4
    have : (l4.num : Rat) ≤ (25 : Rat) := by rw [hcast]; exact h25
    exact_mod_cast this
  refine ⟨hP3, ?_, ⟨h1, h25, hdefault⟩, ?_⟩
  · rw [hP3]; exact List.length_take_le _ _
  · rw [hslice4]
    calc ((normalizeSearchItems raw).take l4.num.toNat).length
        ≤ l4.num.toNat := List.length_take_le _ _
      _ ≤ 25 := by omega

/-- C5 witness: a positive limit of 2 truncates a three-item envelope to
its first two items, and the part_004 schema default of 10. -/
theorem c5_limit_truncation_witness :
    searchLimitedP3 (normalizeSearchItems (Json.arr [Json.str "a", Json.str "b", Json.str "c"]))
        (some (Json.num 2)) =
      [Json.str "a", Json.str "b"] ∧
    (jsSlice0 (normalizeSearchItems (Json.arr [Json.str "a", Json.str "b", Json.str "c"])) 10).length ≤ 25 := by
  have h := c5_limit_truncation (Json.arr [Json.str "a", Json.str "b", Json.str "c"])
    2 (by norm_num) (by norm_num) none 10 (by decide)
  exact ⟨by rw [h.1]; decide, h.2.2.2⟩

/-- C5 counterexample: the part_003 executor applies no default limit —
with the limit argument absent, an eleven-item normalized list is
returned whole, so the "default of 10" part of the claim fails on this
executor. -/
theorem c5_no_default_limit_in_executor :
    (searchLimitedP3 (normalizeSearchItems (Json.arr (List.replicate 11 (Json.str "m")))) none).length = 11 ∧
    ¬ (searchLimitedP3 (normalizeSearchItems (Json.arr (List.replicate 11 (Json.str "m")))) none).length ≤ 10 :=
  ⟨by decide, by decide⟩

/-- A one-string-property schema used to exercise the built validator on
concrete arguments. -/
def c1Schema : ToolParameterSchema :=
  { type := "object"
  , description := none
  , properties := [("query", Json.obj [("type", Json.str "string")])]
  , required := some ["query"]
  , additionalProperties := some false }

/-- C1 (amended): for a valid schema (object type, every property type
supported) the built validator accepts an argument value exactly when it
is an object supplying, for every declared property, a present value
accepted by that property's type — so any argument object missing a
declared property is rejected; an undeclared extra property, however, is
stripped by zod's default object policy and does not cause rejection
(see the counterexample). -/
theorem c1_validator_characterization (schema : ToolParameterSchema)
    (hs : schema.type = "object")
    (hb : ∀ kp ∈ schema.properties, exceptOk (buildZodForProperty kp.2) = true)
    (j : Json) :
    (validateArgs schema j = Except.ok true ↔
      ((∃ fields, j = Json.obj fields) ∧
        ∀ kp ∈ schema.properties,
          ∃ v, jsGet j kp.1 = some v ∧ propCheck kp.2 v = true)) ∧
    ((∃ kp, kp ∈ schema.properties ∧ jsGet j kp.1 = none) →
      validateArgs schema j = Except.ok false) := by
  have hshape := buildShape_of_ok schema.properties hb
  have hval : validateArgs schema j =
      Except.ok (zodObjectAccepts
        (schema.properties.map fun kp => (kp.1, propCheck kp.2)) j) := by
    unfold validateArgs buildToolParameters
    rw [if_neg (by simp [hs]), hshape]
    rfl
  constructor
  · rw [hval]
    simp only [Except.ok.injEq]
    constructor
    · intro hacc
      cases j with
      | obj fields =>
        refine ⟨⟨fields, rfl⟩, ?_⟩
        intro kp hkp
        have hmem : (kp.1, propCheck kp.2) ∈
            schema.properties.map fun kp => (kp.1, propCheck kp.2) :=
          List.mem_map_of_mem _ hkp
        have hone := List.all_eq_true.mp hacc _ hmem
        cases hjv : jsGet (Json.obj fields) kp.1 with
        | none => rw [hjv] at hone; simp at hone
        | some v =>
          rw [hjv] at hone
          exact ⟨v, rfl, hone⟩
      | null => simp [zodObjectAccepts] at hacc
      | bool b => simp [zodObjectAccepts] at hacc
      | num n => simp [zodObjectAccepts] at hacc
      | str s => simp [zodObjectAccepts] at hacc
      | arr xs => simp [zodObjectAccepts] at hacc
    · rintro ⟨⟨fields, rfl⟩, hall⟩
      rw [show zodObjectAccepts (schema.properties.map fun kp => (kp.1, propCheck kp.2))
            (Json.obj fields) =
          (schema.properties.map fun kp => (kp.1, propCheck kp.2)).all fun kv =>
            match jsGet (Json.obj fields) kv.1 with
            | some v => kv.2 v
            | none => false from rfl]
      rw [List.all_eq_true]
      rintro kv hkv
      obtain ⟨kp, hkp, rfl⟩ := List.mem_map.mp hkv
      obtain ⟨v, hv, hcheck⟩ := hall kp hkp
      rw [hv]
      exact hcheck
  · rintro ⟨kp, hkp, hnone⟩
    rw [hval]
    cases j with
    | obj fields =>
      have hfalse : zodObjectAccepts
          (schema.properties.map fun kp => (kp.1, propCheck kp.2))
          (Json.obj fields) = false := by
        cases hacc : zodObjectAccepts
            (schema.properties.map fun kp => (kp.1, propCheck kp.2))
            (Json.obj fields) with
        | false => rfl
        | true =>
          have hmem : (kp.1, propCheck kp.2) ∈
              schema.properties.map fun kp => (kp.1, propCheck kp.2) :=
            List.mem_map_of_mem _ hkp
          have hone := List.all_eq_true.mp hacc _ hmem
          rw [hnone] at hone
          simp at hone
      rw [hfalse]
    | null => rfl
    | bool b => rfl
    | num n => rfl
    | str s => rfl
    | arr xs => rfl

/-- C1 witness: an argument object missing the declared `query` property
is rejected by the validator built from `c1Schema`. -/
theorem c1_validator_characterization_witness :
    validateArgs c1Schema (Json.obj []) = Except.ok false :=
  (c1_validator_characterization c1Schema rfl (by decide) (Json.obj [])).2
    ⟨("query", Json.obj [("type", Json.str "string")]), by decide, rfl⟩

/-- C1 counterexample: the validator built from `c1Schema` accepts an
argument object carrying the undeclared property `extra` — `z.object`
strips unknown keys instead of rejecting them, so the validator does not
accept exactly the declared key set. -/
theorem c1_extra_property_accepted :
    validateArgs c1Schema
        (Json.obj [("query", Json.str "hi"), ("extra", Json.str "x")]) =
      Except.ok true ∧
    c1Schema.properties.map Prod.fst = ["query"] :=
  ⟨by decide, by decide⟩

/-- C3 (amended): if position `i` of the tool-definition list names a
tool without an executor and every earlier definition passes both
executor lookup and parameter-schema building, then tool assembly throws
the `UnsupportedToolError` message naming index `i` and that tool name,
and the part_003 handler returns a 400 error envelope to the HTTP caller
instead of issuing a model call.  (When an earlier definition already
fails schema building, assembly still fails before any model call, but
with the schema error — see the counterexample.) -/
theorem c3_unknown_tool_fails_build (defs : List ToolDefinition) (i : Nat)
    (d : ToolDefinition)
    (hget : defs[i]? = some d)
    (hname : lookupExecutor d.name = none)
    (hpre : ∀ j, j < i →
      lookupExecutor (defs.getD j default).name ≠ none ∧
      exceptOk (buildToolParameters (defs.getD j default).parameters) = true) :
    buildTools defs = Except.error (unsupportedToolMessage i d.name) ∧
    ∀ (messages : List Json) (hasOpenAIKey : Bool),
      chatPOST3Core defs messages hasOpenAIKey =
        ChatOutcome.errorResp 400 (unsupportedToolMessage i d.name) := by
  have hb := buildToolsAux_unknown_name defs i 0 d hget hname hpre
  rw [Nat.zero_add] at hb
  refine ⟨hb, ?_⟩
  intro messages hasOpenAIKey
  simp [chatPOST3Core, buildTools, hb]

/-- The default `add_memory` definition followed by a tool the executor
table does not know. -/
def c3wDefs : List ToolDefinition :=
  [ DEFAULT_TOOL_DEFINITIONS.getD 0 default
  , { name := "web_search"
    , description := "Search the web."
    , parameters :=
      { type := "object"
      , description := none
      , properties := [("query", Json.obj [("type", Json.str "string")])]
      , required := some ["query"]
      , additionalProperties := none }
    , strict := none } ]

/-- C3 witness: a list whose second definition names the unknown tool
`web_search` is rejected with a 400 envelope naming index 1 and the
tool. -/
theorem c3_unknown_tool_fails_build_witness :
    chatPOST3Core c3wDefs [] true =
      ChatOutcome.errorResp 400 (unsupportedToolMessage 1 "web_search") :=
  (c3_unknown_tool_fails_build c3wDefs 1 (c3wDefs.getD 1 default)
    (by decide) (by decide) (by decide)).2 [] true

/-- An edited `add_memory` definition whose only property carries an
unsupported parameter type. -/
def c3BadTypeDef : ToolDefinition :=
  { name := "add_memory"
  , description := "edited"
  , parameters :=
    { type := "object"
    , description := none
    , properties := [("text", Json.obj [("type", Json.str "bogus")])]
    , required := some ["text"]
    , additionalProperties := none }
  , strict := none }

/-- C3 counterexample: with an earlier definition whose schema fails to
build, a list that does contain an unknown tool name (`web_search`, with
no executor) is rejected with the schema error — an error naming neither
the offending index nor the unknown tool name. -/
theorem c3_schema_error_masks_unknown_tool :
    lookupExecutor "web_search" = none ∧
    chatPOST3Core [c3BadTypeDef, c3wDefs.getD 1 default] [] true =
      ChatOutcome.errorResp 400 "Unsupported parameter type: bogus" :=
  ⟨by decide, by decide⟩

/-- C9: every tool-definition list accepted by `normalizeToolDefinitions`
consists of definitions with at least one declared parameter property
and a required set equal to the full property key set; the shipped
`DEFAULT_TOOL_DEFINITIONS` satisfy the same invariant. -/
theorem c9_normalize_required_invariant (input : Json) (defs : List ToolDefinition)
    (h : normalizeToolDefinitions input = Except.ok defs) :
    (∀ d ∈ defs, d.parameters.properties ≠ [] ∧
      d.parameters.required = some (d.parameters.properties.map Prod.fst)) ∧
    (∀ d ∈ DEFAULT_TOOL_DEFINITIONS, d.parameters.properties ≠ [] ∧
      d.parameters.required = some (d.parameters.properties.map Prod.fst)) := by
  refine ⟨?_, by decide⟩
  cases input with
  | arr items => exact normalizeToolDefinitionsAux_invariant 0 items defs h
  | null => cases h
  | bool b => cases h
  | num n => cases h
  | str s => cases h
  | obj fields => cases h

/-- A concrete submitted tool-definition payload and its normalized
output, witnessing the required-set invariant. -/
def c9Input : Json :=
  Json.arr
    [ Json.obj
      [ ("name", Json.str "add_memory")
      , ("description", Json.str "d")
      , ("parameters", Json.obj
          [ ("type", Json.str "object")
          , ("properties", Json.obj
              [("text", Json.obj [("type", Json.str "string")])]) ]) ] ]

def c9OutDef : ToolDefinition :=
  { name := "add_memory"
  , description := "d"
  , parameters :=
    { type := "object"
    , description := none
    , properties := [("text", Json.obj [("type", Json.str "string")])]
    , required := some ["text"]
    , additionalProperties := none }
  , strict := none }

/-- C9 witness: the invariant on the definition normalized from
`c9Input`. -/
theorem c9_normalize_required_invariant_witness :
    c9OutDef.parameters.properties ≠ [] ∧
    c9OutDef.parameters.required = some (c9OutDef.parameters.properties.map Prod.fst) :=
  (c9_normalize_required_invariant c9Input [c9OutDef] (by decide)).1
    c9OutDef (by decide)
